import Mathlib

/-!
# cliexit: the detach detector, the input proxy, stream routing and terminal restore

A shallow embedding of `main.go`.

* Instants (`time.Time`) are integers counting nanoseconds on one clock whose
  origin is the zero `time.Time`; `time.Now()` is an argument of `observe`.
* `time.Duration` is a 64-bit count of nanoseconds and `Time.Sub` saturates at
  the two ends of that range, as the Go library does.
* The goroutine that reads the terminal is a loop over the list of what each
  iteration meets: the result of `os.Stdin.Read`, the clock, and the result of
  `ptmx.Write`.
-/

namespace Cliexit

/-! ## Time -/

/-! An instant (`time.Time`) is an `Int`: nanoseconds since the zero `time.Time`.
A `time.Duration` is an `Int` too: nanoseconds, between `minDuration` and
`maxDuration`. -/

/-- The constant `time.Millisecond`. -/
def Millisecond : Int := 1000000

/-- Smallest `time.Duration` (minimum int64). -/
def minDuration : Int := -(2 ^ 63)

/-- Largest `time.Duration` (maximum int64). -/
def maxDuration : Int := 2 ^ 63 - 1

/-- The method `Time.Sub` of the Go library: the duration `t - u`, or the nearest end of the
`Duration` range when `t - u` does not fit. -/
def Sub (t u : Int) : Int :=
  if t - u < minDuration then minDuration
  else if maxDuration < t - u then maxDuration
  else t - u

/-! ## The detector (`main.go` lines 22-58) -/

def StateNone : Int := 0
def StateOne : Int := 1
def StateTwo : Int := 2

/-- The struct `obs`: time of the last call and the state. -/
structure obs where
  last : Int
  state : Int
  deriving DecidableEq

/-- The zero value `var o obs`. -/
def obs.zero : obs := { last := 0, state := StateNone }

/-- The method `(o *obs) observe() bool`, with the value of `time.Now()` passed
as `now`. The result pairs the returned boolean with the updated `obs`. -/
def obs.observe (o : obs) (now : Int) : Bool × obs :=
  let withinTime : Bool := decide (Sub now o.last < 500 * Millisecond)
  let sr : Int × Bool :=
    if o.state = StateNone then (StateOne, false)
    else if o.state = StateOne then
      (if withinTime then (StateTwo, false) else (StateOne, false))
    else if o.state = StateTwo then
      (if withinTime then (StateNone, true) else (StateOne, false))
    else (o.state, false)
  (sr.2, { last := now, state := sr.1 })

/-- Results of consecutive `observe` calls, one per instant of `ts`. -/
def observeAll : obs → List Int → List Bool
  | _, [] => []
  | o, t :: ts => (o.observe t).1 :: observeAll (o.observe t).2 ts

/-- The detector after consecutive `observe` calls, one per instant of `ts`. -/
def runObs : obs → List Int → obs
  | o, [] => o
  | o, t :: ts => runObs (o.observe t).2 ts

/-- The gap between occurrence `i` and the one before it is inside the debounce
window (`i` counts from 0 and is meant for `1 ≤ i`). -/
def within (ts : List Int) (i : Nat) : Prop :=
  ts.getD i 0 - ts.getD (i - 1) 0 < 500 * Millisecond

instance (ts : List Int) (i : Nat) : Decidable (within ts i) :=
  inferInstanceAs (Decidable (ts.getD i 0 - ts.getD (i - 1) 0 < 500 * Millisecond))

/-- Occurrence `i` (counted from 0, so it is call `i + 1`) closes a triple:
it is at least the third occurrence and the two gaps that end at it are both
inside the debounce window. -/
def tripleAt (ts : List Int) (i : Nat) : Prop :=
  2 ≤ i ∧ i < ts.length ∧ within ts i ∧ within ts (i - 1)

instance (ts : List Int) (i : Nat) : Decidable (tripleAt ts i) :=
  inferInstanceAs (Decidable (2 ≤ i ∧ i < ts.length ∧ within ts i ∧ within ts (i - 1)))

/-! ## The transition rule as the specification words it -/

/-- The detector states of the specification. -/
inductive DetState
  | Idle
  | ArmedOnce
  | ArmedTwice
  deriving DecidableEq

/-- The integer that the program stores for a specification state. -/
def DetState.code : DetState → Int
  | .Idle => StateNone
  | .ArmedOnce => StateOne
  | .ArmedTwice => StateTwo

/-- What one qualifying occurrence does, in the specification: the next state,
whether the detector fires, and the stored reference timestamp. -/
structure SpecStep where
  next : DetState
  fires : Bool
  stamp : Int
  deriving DecidableEq

/-- The transition rule of the specification, evaluated on an occurrence at
time `t` given the timestamp `tprev` of the previous one. -/
def specTransition (s : DetState) (tprev t : Int) : SpecStep :=
  match s with
  | .Idle => { next := .ArmedOnce, fires := false, stamp := t }
  | .ArmedOnce =>
    if t - tprev < 500 * Millisecond then { next := .ArmedTwice, fires := false, stamp := t }
    else { next := .ArmedOnce, fires := false, stamp := t }
  | .ArmedTwice =>
    if t - tprev < 500 * Millisecond then { next := .Idle, fires := true, stamp := t }
    else { next := .ArmedOnce, fires := false, stamp := t }

/-! ## The input proxy (`main.go` lines 133-167) -/

/-- A byte. -/
abbrev Byte := Fin 256

/-- Scan of `bytes.IndexByte` from position `i` on. -/
def indexByteFrom (c : Byte) : List Byte → Int → Int
  | [], _ => -1
  | b :: bs, i => if b = c then i else indexByteFrom c bs (i + 1)

/-- The library function `bytes.IndexByte`: the index of the first `c` in `b`,
or `-1` when `c` does not occur. -/
def IndexByte (b : List Byte) (c : Byte) : Int := indexByteFrom c b 0

/-- The signals the program names. -/
inductive Signal
  | SIGTERM
  | SIGWINCH
  | SIGINT
  | SIGHUP
  deriving DecidableEq

/-- What the exit dispatch can do. -/
inductive Action
  /-- The call `cmd.Process.Signal(sig)` on the process `pid`. -/
  | Signal (pid : Int) (sig : Signal)
  /-- The command `exec.Command(name, arg...)` with `Env = env`, run by `go func() { exitCmd.Run() }()`:
  started on a goroutine of its own and never waited for. -/
  | RunAsync (name : String) (arg : List String) (env : List String)
  deriving DecidableEq

/-- What one turn of the read loop meets. -/
structure Turn where
  /-- The bytes `buf[:n]` that `os.Stdin.Read` delivered. -/
  data : List Byte
  /-- Whether `os.Stdin.Read` returned an error. -/
  readErr : Bool
  /-- The value `time.Now()` would give during this turn. -/
  now : Int
  /-- The result of `ptmx.Write(data)`: `none` when it succeeds (every byte written),
  `some nn` when it fails after `nn` bytes. -/
  writeErr : Option Nat

/-- State of the goroutine: the detector `o`, what has reached the PTY master,
and the exit actions dispatched so far. -/
structure Proxy where
  o : obs
  written : List Byte
  actions : List Action
  deriving DecidableEq

/-- The goroutine at its start: `var o obs`, nothing written, nothing dispatched. -/
def Proxy.init : Proxy := { o := obs.zero, written := [], actions := [] }

/-- Lines 147-157: the action taken when `observe` returned true. -/
def exitAction (exitCmdFlag : String) (pid : Int) : Action :=
  if exitCmdFlag ≠ "" then
    Action.RunAsync "bash" ["-c", exitCmdFlag] ["TARGET_PID=" ++ toString pid]
  else
    Action.Signal pid Signal.SIGTERM

/-- Lines 144-159: the scan of one chunk. Returns the detector afterwards and
the actions dispatched for this chunk. -/
def scanChunk (exitCmdFlag : String) (pid : Int) (o : obs) (data : List Byte) (now : Int) :
    obs × List Action :=
  if IndexByte data 0x1d ≠ -1 then
    if (o.observe now).1 then ((o.observe now).2, [exitAction exitCmdFlag pid])
    else ((o.observe now).2, [])
  else (o, [])

/-- The `for` loop of lines 136-166, run over the turns it meets. It stops at a
read error, at a read of zero bytes and at a write error; when the turns are
used up the goroutine is blocked in `Read`. -/
def inputLoop (exitCmdFlag : String) (pid : Int) : Proxy → List Turn → Proxy
  | s, [] => s
  | s, it :: its =>
    if it.readErr then s
    else if it.data.length = 0 then s
    else
      let r := scanChunk exitCmdFlag pid s.o it.data it.now
      match it.writeErr with
      | some nn =>
        { o := r.1, written := s.written ++ it.data.take nn, actions := s.actions ++ r.2 }
      | none =>
        inputLoop exitCmdFlag pid
          { o := r.1, written := s.written ++ it.data, actions := s.actions ++ r.2 } its

/-- The turn is one the loop goes through to its end: the read gave at least one
byte and no error, and the write gave no error. -/
def Turn.ok (it : Turn) : Prop :=
  it.readErr = false ∧ it.data ≠ [] ∧ it.writeErr = none

/-- The clock values of the turns whose chunk holds the byte 0x1D, in order. -/
def detachTimes (its : List Turn) : List Int :=
  (its.filter (fun it => decide ((0x1d : Byte) ∈ it.data))).map Turn.now

/-! ## Stream routing (`main.go` lines 83-105, 168-173) -/

/-- The `*os.File` values of `main`. -/
inductive File
  | Stdin
  | Stdout
  | Stderr
  | tty
  | ptmx
  deriving DecidableEq

/-- The closure `ttyIfTerm`; `IsTerminal` stands for `term.IsTerminal(int(f.Fd()))`. -/
def ttyIfTerm (IsTerminal : File → Bool) (f : File) : File :=
  if IsTerminal f then File.tty else f

/-- The three streams given to the child and the variable `ptmxTarget`
(`none` is the nil pointer). -/
structure Routing where
  cmdStdin : File
  cmdStdout : File
  cmdStderr : File
  ptmxTarget : Option File
  deriving DecidableEq

/-- Lines 91-105. -/
def routing (IsTerminal : File → Bool) : Routing :=
  let cmdStdout := ttyIfTerm IsTerminal File.Stdout
  let cmdStderr := ttyIfTerm IsTerminal File.Stderr
  { cmdStdin := ttyIfTerm IsTerminal File.Stdin
    cmdStdout := cmdStdout
    cmdStderr := cmdStderr
    ptmxTarget :=
      if cmdStdout = File.tty then some File.Stdout
      else if cmdStderr = File.tty then some File.Stderr
      else none }

/-- Lines 168-173: the output goroutine. `fromMaster` is what `io.Copy` reads
from the PTY master; the result lists the writes made, each with its destination. -/
def outputProxy (ptmxTarget : Option File) (fromMaster : List (List Byte)) :
    List (File × List Byte) :=
  match ptmxTarget with
  | some f => fromMaster.map (fun chunk => (f, chunk))
  | none => []

/-! ## Exit paths of `main` -/

/-- The steps of `main` that matter for the terminal mode and the session. -/
inductive Event
  | UsageExit
  | MakeRaw
  | Restore
  | PtyOpen
  | PtmxClose
  | Start
  | TtyClose
  | Notify
  | SignalStop
  | WgWait
  | GoInput
  | GoOutput
  | ProcessWait
  | Return
  | PanicExit
  | Killed (sig : Signal)
  deriving DecidableEq

/-- What `main` meets on its way. -/
structure Env where
  /-- The value `len(args)`. -/
  nargs : Nat
  /-- Whether `term.MakeRaw` returns an error. -/
  makeRawErr : Bool
  /-- Whether `pty.Open` returns an error. -/
  ptyOpenErr : Bool
  /-- Whether `cmd.Start` returns an error. -/
  startErr : Bool

/-- How the body of `main` ends. -/
inductive Ending
  | Exited
  | Panicked
  | Returned
  deriving DecidableEq

/-- The body of `main`: the steps taken, the deferred calls in the order the
`defer` statements registered them, and how the body ended. -/
def mainBody (env : Env) : List Event × List Event × Ending :=
  if env.nargs = 0 then ([Event.UsageExit], [], Ending.Exited)
  else if env.makeRawErr then ([], [], Ending.Panicked)
  else if env.ptyOpenErr then ([Event.MakeRaw], [Event.Restore], Ending.Panicked)
  else if env.startErr then
    ([Event.MakeRaw, Event.PtyOpen], [Event.Restore, Event.PtmxClose], Ending.Panicked)
  else
    ([Event.MakeRaw, Event.PtyOpen, Event.Start, Event.TtyClose, Event.Notify,
      Event.GoInput, Event.GoOutput, Event.ProcessWait],
     [Event.Restore, Event.PtmxClose, Event.SignalStop, Event.WgWait], Ending.Returned)

/-- The run of `main` when no signal ends the process. After `os.Exit` no
call that was deferred is run; a return and a panic both run the calls that
were deferred, last registered first, before the process ends. -/
def mainRun (env : Env) : List Event :=
  match mainBody env with
  | (evs, _, Ending.Exited) => evs
  | (evs, defers, Ending.Panicked) => evs ++ defers.reverse ++ [Event.PanicExit]
  | (evs, defers, Ending.Returned) => evs ++ defers.reverse ++ [Event.Return]

/-- The signals passed to `signal.Notify` (line 119). -/
def notified : List Signal := [Signal.SIGWINCH]

/-- The run of `main` when the signal `sig` is delivered from outside after the
first `k` steps. A signal that `signal.Notify` registered goes to the channel
and the run goes on; any other signal of `Signal` ends the process there and
then, with no deferred call run. A signal that arrives after the last step
finds no process. -/
def mainRunSignalled (env : Env) (k : Nat) (sig : Signal) : List Event :=
  if sig ∈ notified then mainRun env
  else if k < (mainRun env).length then (mainRun env).take k ++ [Event.Killed sig]
  else mainRun env

/-! ## Facts about one call of `observe` -/

/-- Saturation does not change the comparison with the debounce window. -/
theorem Sub_lt_window (t u : Int) :
    Sub t u < 500 * Millisecond ↔ t - u < 500 * Millisecond := by
  unfold Sub minDuration maxDuration Millisecond
  split_ifs <;> omega

/-- A call always stores the call time. -/
theorem observe_last (o : obs) (t : Int) : (o.observe t).2.last = t := rfl

theorem observe_none (p t : Int) :
    obs.observe { last := p, state := StateNone } t = (false, { last := t, state := StateOne }) := by
  simp [obs.observe, StateNone, StateOne]

theorem observe_one (p t : Int) :
    obs.observe { last := p, state := StateOne } t =
      (false, { last := t, state := if t - p < 500 * Millisecond then StateTwo else StateOne }) := by
  by_cases h : t - p < 500 * Millisecond <;>
    simp [obs.observe, StateNone, StateOne, StateTwo, Sub_lt_window, h]

theorem observe_two (p t : Int) :
    obs.observe { last := p, state := StateTwo } t =
      (decide (t - p < 500 * Millisecond),
        { last := t, state := if t - p < 500 * Millisecond then StateNone else StateOne }) := by
  by_cases h : t - p < 500 * Millisecond <;>
    simp [obs.observe, StateNone, StateOne, StateTwo, Sub_lt_window, h]

/-- A detector whose state is one of the three constants. -/
theorem obs_cases (o : obs)
    (h : o.state = StateNone ∨ o.state = StateOne ∨ o.state = StateTwo) :
    o = { last := o.last, state := StateNone } ∨ o = { last := o.last, state := StateOne } ∨
      o = { last := o.last, state := StateTwo } := by
  cases o with
  | mk l s =>
    simp only at h
    rcases h with h | h | h <;> simp [h]

/-- Claim C3. For every specification state, previous timestamp and call time,
`observe` is the transition function of the specification: Idle goes to
ArmedOnce without firing; ArmedOnce goes to ArmedTwice inside the window and
stays otherwise, without firing; ArmedTwice fires and returns to Idle inside
the window and falls back to ArmedOnce otherwise; the stored timestamp becomes
the call time; and a gap of exactly 500ms is outside the window. -/
theorem observe_eq_specTransition (s : DetState) (tprev t : Int) :
    obs.observe { last := tprev, state := s.code } t =
        ((specTransition s tprev t).fires,
          { last := (specTransition s tprev t).stamp,
            state := (specTransition s tprev t).next.code }) ∧
      (specTransition s tprev t).stamp = t ∧
      (t - tprev = 500 * Millisecond →
        (specTransition s tprev t).fires = false ∧
        (specTransition s tprev t).next = DetState.ArmedOnce) := by
  cases s
  · refine ⟨?_, rfl, fun _ => ⟨rfl, rfl⟩⟩
    simp [DetState.code, specTransition, observe_none]
  · refine ⟨?_, ?_, ?_⟩
    · by_cases h : t - tprev < 500 * Millisecond <;>
        simp [DetState.code, specTransition, observe_one, h]
    · by_cases h : t - tprev < 500 * Millisecond <;> simp [specTransition, h]
    · intro h
      simp [specTransition, h]
  · refine ⟨?_, ?_, ?_⟩
    · by_cases h : t - tprev < 500 * Millisecond <;>
        simp [DetState.code, specTransition, observe_two, h]
    · by_cases h : t - tprev < 500 * Millisecond <;> simp [specTransition, h]
    · intro h
      simp [specTransition, h]

theorem observe_eq_specTransition_witness :
    (specTransition DetState.ArmedTwice 0 (500 * Millisecond)).fires = false ∧
      (specTransition DetState.ArmedTwice 0 (500 * Millisecond)).next = DetState.ArmedOnce :=
  (observe_eq_specTransition DetState.ArmedTwice 0 (500 * Millisecond)).2.2 (by decide)

/-- The state stays one of the three constants along any run. -/
theorem runObs_state (ts : List Int) : ∀ o : obs,
    (o.state = StateNone ∨ o.state = StateOne ∨ o.state = StateTwo) →
    ((runObs o ts).state = StateNone ∨ (runObs o ts).state = StateOne ∨
      (runObs o ts).state = StateTwo) := by
  induction ts with
  | nil => intro o h; exact h
  | cons t ts ih =>
    intro o h
    apply ih
    rcases obs_cases o h with e | e | e <;> rw [e]
    · simp [observe_none]
    · rw [observe_one]; by_cases hw : t - o.last < 500 * Millisecond <;> simp [hw]
    · rw [observe_two]; by_cases hw : t - o.last < 500 * Millisecond <;> simp [hw]

/-- One call from a state among the three constants: the new state is StateNone
exactly when the call returned true. -/
theorem observe_none_iff (o : obs) (t : Int)
    (h : o.state = StateNone ∨ o.state = StateOne ∨ o.state = StateTwo) :
    ((o.observe t).2.state = StateNone ↔ (o.observe t).1 = true) := by
  rcases obs_cases o h with e | e | e <;> rw [e]
  · rw [observe_none]; simp [StateNone, StateOne]
  · rw [observe_one]
    by_cases hw : t - o.last < 500 * Millisecond <;> simp [hw, StateNone, StateOne, StateTwo]
  · rw [observe_two]
    by_cases hw : t - o.last < 500 * Millisecond <;> simp [hw, StateNone, StateOne]

/-- Claim C10. From a state among StateNone, StateOne and StateTwo a call of
`observe` leaves a state among those three, and that state is StateNone exactly
when the call returned true; and after any calls on a fresh detector the state
is again among the three and a further call leaves StateNone exactly when it
returns true. -/
theorem observe_state_invariant (o : obs) (t : Int) (ts : List Int)
    (h : o.state = StateNone ∨ o.state = StateOne ∨ o.state = StateTwo) :
    ((o.observe t).2.state = StateNone ∨ (o.observe t).2.state = StateOne ∨
        (o.observe t).2.state = StateTwo) ∧
      ((o.observe t).2.state = StateNone ↔ (o.observe t).1 = true) ∧
      ((runObs obs.zero ts).state = StateNone ∨ (runObs obs.zero ts).state = StateOne ∨
        (runObs obs.zero ts).state = StateTwo) ∧
      (((runObs obs.zero ts).observe t).2.state = StateNone ↔
        ((runObs obs.zero ts).observe t).1 = true) := by
  have hz : obs.zero.state = StateNone ∨ obs.zero.state = StateOne ∨
      obs.zero.state = StateTwo := Or.inl rfl
  exact ⟨runObs_state [t] o h, observe_none_iff o t h, runObs_state ts _ hz,
    observe_none_iff _ t (runObs_state ts _ hz)⟩

theorem observe_state_invariant_witness :
    ((obs.observe { last := 0, state := StateTwo } 100).2.state = StateNone ↔
      (obs.observe { last := 0, state := StateTwo } 100).1 = true) :=
  (observe_state_invariant { last := 0, state := StateTwo } 100 [] (Or.inr (Or.inr rfl))).2.1

/-- Claim C6, as amended. When the gap from the previous occurrence is at or above
500ms, a call from Idle, ArmedOnce or ArmedTwice does not fire and leaves
ArmedOnce: that is at most one step behind the state before the call, and from
ArmedOnce and ArmedTwice it is not further advanced than the state before the
call, while from Idle it is one step ahead. Two occurrences 100ms apart and
a third 700ms later leave ArmedOnce with no firing. -/
theorem observe_outside_window (o : obs) (t T : Int)
    (h : o.state = StateNone ∨ o.state = StateOne ∨ o.state = StateTwo)
    (hgap : 500 * Millisecond ≤ t - o.last) :
    (o.observe t).1 = false ∧
      (o.observe t).2.state = StateOne ∧
      o.state - 1 ≤ (o.observe t).2.state ∧
      (o.state ≠ StateNone → (o.observe t).2.state ≤ o.state) ∧
      (o.state = StateNone → (o.observe t).2.state = o.state + 1) ∧
      observeAll obs.zero [T, T + 100 * Millisecond, T + 800 * Millisecond] =
        [false, false, false] ∧
      (runObs obs.zero [T, T + 100 * Millisecond, T + 800 * Millisecond]).state = StateOne := by
  have hn : ¬ t - o.last < 500 * Millisecond := by omega
  have hs : observeAll obs.zero [T, T + 100 * Millisecond, T + 800 * Millisecond] =
        [false, false, false] ∧
      (runObs obs.zero [T, T + 100 * Millisecond, T + 800 * Millisecond]).state = StateOne := by
    have h1 : obs.observe { last := T, state := StateOne } (T + 100 * Millisecond) =
        (false, { last := T + 100 * Millisecond, state := StateTwo }) := by
      rw [observe_one]; simp [Millisecond]
    have h2 : obs.observe { last := T + 100 * Millisecond, state := StateTwo }
        (T + 800 * Millisecond) = (false, { last := T + 800 * Millisecond, state := StateOne }) := by
      rw [observe_two]; simp [Millisecond]
    simp only [observeAll, runObs, obs.zero, observe_none, h1, h2, and_self]
  rcases obs_cases o h with e | e | e
  · rw [e, observe_none]; simp [StateNone, StateOne, hs]
  · rw [e, observe_one]; simp [hn, StateNone, StateOne, hs]
  · rw [e, observe_two]; simp [hn, StateNone, StateOne, StateTwo, hs]

theorem observe_outside_window_witness :
    (obs.observe { last := 0, state := StateTwo } (500 * Millisecond)).1 = false ∧
      (obs.observe { last := 0, state := StateTwo } (500 * Millisecond)).2.state = StateOne :=
  ⟨(observe_outside_window { last := 0, state := StateTwo } (500 * Millisecond) 0
      (Or.inr (Or.inr rfl)) (by decide)).1,
    (observe_outside_window { last := 0, state := StateTwo } (500 * Millisecond) 0
      (Or.inr (Or.inr rfl)) (by decide)).2.1⟩

/-- Claim C6, as stated, fails. After three occurrences 100ms apart the detector
has fired and is Idle; a fourth occurrence 800ms after the third has a gap at
or above 500ms, and it takes the detector from Idle forward to ArmedOnce. -/
theorem observe_outside_window_advances_from_idle :
    (runObs obs.zero [0, 100 * Millisecond, 200 * Millisecond]).state = StateNone ∧
      500 * Millisecond ≤
        1000 * Millisecond - (runObs obs.zero [0, 100 * Millisecond, 200 * Millisecond]).last ∧
      ((runObs obs.zero [0, 100 * Millisecond, 200 * Millisecond]).observe
        (1000 * Millisecond)).2.state = StateOne ∧
      ¬ ((runObs obs.zero [0, 100 * Millisecond, 200 * Millisecond]).observe
        (1000 * Millisecond)).2.state ≤
          (runObs obs.zero [0, 100 * Millisecond, 200 * Millisecond]).state := by
  decide

/-! ## Runs of the detector, by position -/

theorem observeAll_length (ts : List Int) : ∀ o : obs, (observeAll o ts).length = ts.length := by
  induction ts with
  | nil => intro o; rfl
  | cons t ts ih => intro o; simp [observeAll, ih]

/-- Call `i` of a run is `observe` applied to the detector left by the first `i` calls. -/
theorem observeAll_getD (ts : List Int) : ∀ (o : obs) (i : Nat), i < ts.length →
    (observeAll o ts).getD i false = ((runObs o (ts.take i)).observe (ts.getD i 0)).1 := by
  induction ts with
  | nil => intro o i hi; simp at hi
  | cons t ts ih =>
    intro o i hi
    cases i with
    | zero => simp [observeAll, runObs]
    | succ j =>
      have hj : j < ts.length := by simpa using hi
      simpa [observeAll, runObs] using ih (o.observe t).2 j hj

/-- A result past the end of the run is not a firing. -/
theorem observeAll_getD_lt (ts : List Int) (o : obs) (i : Nat)
    (h : (observeAll o ts).getD i false = true) : i < ts.length := by
  by_contra hi
  rw [List.getD_eq_default _ _ (by rw [observeAll_length]; omega)] at h
  exact Bool.false_ne_true h

theorem runObs_take_succ (ts : List Int) : ∀ (o : obs) (i : Nat), i < ts.length →
    runObs o (ts.take (i + 1)) = ((runObs o (ts.take i)).observe (ts.getD i 0)).2 := by
  induction ts with
  | nil => intro o i hi; simp at hi
  | cons t ts ih =>
    intro o i hi
    cases i with
    | zero => simp [runObs]
    | succ j =>
      have hj : j < ts.length := by simpa using hi
      simpa [runObs] using ih (o.observe t).2 j hj

/-- While no triple has been closed, no call has fired, and the detector is
ArmedTwice when the last gap was inside the window and ArmedOnce otherwise. -/
theorem before_first_triple (ts : List Int) : ∀ i : Nat, i < ts.length →
    (∀ j, j ≤ i → ¬ tripleAt ts j) →
    (∀ j, j ≤ i → (observeAll obs.zero ts).getD j false = false) ∧
      runObs obs.zero (ts.take (i + 1)) =
        { last := ts.getD i 0, state := if 1 ≤ i ∧ within ts i then StateTwo else StateOne } := by
  intro i
  induction i with
  | zero =>
    intro hi _
    have hr : runObs obs.zero (ts.take 0) = { last := 0, state := StateNone } := by
      simp [runObs, obs.zero]
    refine ⟨?_, ?_⟩
    · intro j hj
      have hj0 : j = 0 := by omega
      subst hj0
      rw [observeAll_getD ts _ 0 hi, hr, observe_none]
    · rw [runObs_take_succ ts _ 0 hi, hr, observe_none]
      simp
  | succ i ih =>
    intro hi hno
    have hi1 : i < ts.length := by omega
    obtain ⟨hres, hst⟩ := ih hi1 (fun j hj => hno j (by omega))
    have hnt : ¬ (1 ≤ i ∧ within ts i ∧ within ts (i + 1)) := by
      intro hc
      apply hno (i + 1) (le_refl _)
      refine ⟨by omega, hi, hc.2.2, ?_⟩
      simpa using hc.2.1
    have key : ((runObs obs.zero (ts.take (i + 1))).observe (ts.getD (i + 1) 0)) =
        (false, { last := ts.getD (i + 1) 0,
                  state := if 1 ≤ i + 1 ∧ within ts (i + 1) then StateTwo else StateOne }) := by
      rw [hst]
      by_cases hc : 1 ≤ i ∧ within ts i
      · have hn1 : ¬ within ts (i + 1) := fun h1 => hnt ⟨hc.1, hc.2, h1⟩
        have hn2 : ¬ ts.getD (i + 1) 0 - ts.getD i 0 < 500 * Millisecond := hn1
        rw [if_pos hc, observe_two, if_neg hn2, decide_eq_false hn2,
          if_neg (fun h => hn1 h.2)]
      · rw [if_neg hc, observe_one]
        by_cases h1 : within ts (i + 1)
        · have h2 : ts.getD (i + 1) 0 - ts.getD i 0 < 500 * Millisecond := h1
          rw [if_pos h2, if_pos ⟨by omega, h1⟩]
        · have h2 : ¬ ts.getD (i + 1) 0 - ts.getD i 0 < 500 * Millisecond := h1
          rw [if_neg h2, if_neg (fun h => h1 h.2)]
    refine ⟨?_, ?_⟩
    · intro j hj
      by_cases hje : j = i + 1
      · subst hje
        rw [observeAll_getD ts _ (i + 1) hi, key]
      · exact hres j (by omega)
    · rw [runObs_take_succ ts _ (i + 1) hi, key]

/-- The call that closes the first triple fires. -/
theorem first_triple_fires (ts : List Int) (i : Nat) (ht : tripleAt ts i)
    (hno : ∀ j, j < i → ¬ tripleAt ts j) :
    (observeAll obs.zero ts).getD i false = true := by
  obtain ⟨h2, hi, hw, hw1⟩ := ht
  obtain ⟨k, rfl⟩ : ∃ k, i = k + 1 := ⟨i - 1, by omega⟩
  have hst := (before_first_triple ts k (by omega) (fun j hj => hno j (by omega))).2
  have hk : 1 ≤ k ∧ within ts k := ⟨by omega, by simpa using hw1⟩
  have hw2 : ts.getD (k + 1) 0 - ts.getD k 0 < 500 * Millisecond := hw
  rw [observeAll_getD ts _ (k + 1) hi, hst, if_pos hk, observe_two]
  exact decide_eq_true hw2

/-- Call `i` is the first to fire exactly when it closes the first triple. -/
theorem first_fire_iff (ts : List Int) (i : Nat) :
    ((observeAll obs.zero ts).getD i false = true ∧
        ∀ j, j < i → (observeAll obs.zero ts).getD j false = false) ↔
      (tripleAt ts i ∧ ∀ j, j < i → ¬ tripleAt ts j) := by
  constructor
  · rintro ⟨hf, hnf⟩
    have hno : ∀ j, j < i → ¬ tripleAt ts j := by
      intro j
      induction j using Nat.strong_induction_on with
      | _ j ihj =>
        intro hj ht
        have := first_triple_fires ts j ht (fun k hk => ihj k hk (by omega))
        rw [hnf j hj] at this
        exact Bool.false_ne_true this
    refine ⟨?_, hno⟩
    by_contra hti
    have hi := observeAll_getD_lt ts _ i hf
    have := (before_first_triple ts i hi (fun j hj => by
      rcases Nat.lt_or_eq_of_le hj with h | h
      · exact hno j h
      · rw [h]; exact hti)).1 i (le_refl _)
    rw [hf] at this
    exact Bool.false_ne_true this.symm
  · rintro ⟨ht, hno⟩
    refine ⟨first_triple_fires ts i ht hno, ?_⟩
    intro j hj
    have hi : i < ts.length := ht.2.1
    exact (before_first_triple ts j (by omega) (fun k hk => hno k (by omega))).1 j (le_refl _)

/-- Claim C1. On a fresh detector fed the occurrence times `ts`, one per call
(positions count from 0, so position `i` is call `i + 1`): some call returns
true if and only if some position `i ≥ 2` has both gaps that end at it below
500ms; the first call that returns true is the call at the smallest such
position; and three occurrences 100ms apart fire exactly once, on the third. -/
theorem fires_iff_triple (ts : List Int) :
    ((∃ i, (observeAll obs.zero ts).getD i false = true) ↔ ∃ i, tripleAt ts i) ∧
      (∀ i, ((observeAll obs.zero ts).getD i false = true ∧
            ∀ j, j < i → (observeAll obs.zero ts).getD j false = false) ↔
          (tripleAt ts i ∧ ∀ j, j < i → ¬ tripleAt ts j)) ∧
      (∀ T : Int, observeAll obs.zero [T, T + 100 * Millisecond, T + 200 * Millisecond] =
          [false, false, true]) := by
  refine ⟨⟨?_, ?_⟩, first_fire_iff ts, ?_⟩
  · intro h
    classical
    refine ⟨Nat.find h, ((first_fire_iff ts (Nat.find h)).1 ⟨Nat.find_spec h, ?_⟩).1⟩
    intro j hj
    have := Nat.find_min h hj
    simpa using this
  · intro h
    classical
    exact ⟨Nat.find h, ((first_fire_iff ts (Nat.find h)).2
      ⟨Nat.find_spec h, fun j hj => Nat.find_min h hj⟩).1⟩
  · intro T
    have h1 : obs.observe { last := T, state := StateOne } (T + 100 * Millisecond) =
        (false, { last := T + 100 * Millisecond, state := StateTwo }) := by
      rw [observe_one]; simp [Millisecond]
    have h2 : obs.observe { last := T + 100 * Millisecond, state := StateTwo }
        (T + 200 * Millisecond) = (true, { last := T + 200 * Millisecond, state := StateNone }) := by
      rw [observe_two]; simp [Millisecond]
    simp only [observeAll, obs.zero, observe_none, h1, h2]

theorem fires_iff_triple_witness :
    (observeAll obs.zero [0, 100 * Millisecond, 700 * Millisecond, 750 * Millisecond,
        800 * Millisecond]).getD 4 false = true ∧
      ∀ j, j < 4 →
        (observeAll obs.zero [0, 100 * Millisecond, 700 * Millisecond, 750 * Millisecond,
          800 * Millisecond]).getD j false = false :=
  ((fires_iff_triple [0, 100 * Millisecond, 700 * Millisecond, 750 * Millisecond,
    800 * Millisecond]).2.1 4).2 ⟨by decide, by decide⟩

/-! ## Runs in which every gap is inside the window -/

/-- Inside the window the state, read as a number, moves one step round the
cycle 0, 1, 2, and the call fires on the step from 2 to 0. -/
theorem observe_phase (p t : Int) (s : Nat) (hs : s < 3) (hw : t - p < 500 * Millisecond) :
    obs.observe { last := p, state := (s : Int) } t =
      (decide (s = 2), { last := t, state := (((s + 1) % 3 : Nat) : Int) }) := by
  interval_cases s
  · exact observe_none p t
  · have := observe_one p t
    rw [if_pos hw] at this
    exact this
  · have := observe_two p t
    rw [if_pos hw, decide_eq_true hw] at this
    exact this

theorem run_all_within (ts : List Int) : ∀ (p : Int) (s : Nat), s < 3 →
    List.Chain (fun a b => b - a < 500 * Millisecond) p ts →
    (∀ i, i < ts.length →
        (observeAll { last := p, state := (s : Int) } ts).getD i false = decide ((i + s) % 3 = 2)) ∧
      (observeAll { last := p, state := (s : Int) } ts).count true = (ts.length + s) / 3 ∧
      (runObs { last := p, state := (s : Int) } ts).state = (((ts.length + s) % 3 : Nat) : Int) := by
  induction ts with
  | nil =>
    intro p s hs _
    refine ⟨fun i hi => by simp at hi, ?_, ?_⟩
    · simp [observeAll]; omega
    · simp [runObs, Nat.mod_eq_of_lt hs]
  | cons t ts ih =>
    intro p s hs hc
    rw [List.chain_cons] at hc
    obtain ⟨h1, h2, h3⟩ := ih t ((s + 1) % 3) (Nat.mod_lt _ (by decide)) hc.2
    have hstep := observe_phase p t s hs hc.1
    refine ⟨?_, ?_, ?_⟩
    · intro i hi
      cases i with
      | zero => simp [observeAll, hstep]; omega
      | succ j =>
        have hj : j < ts.length := by simpa using hi
        have := h1 j hj
        simp only [observeAll, hstep, List.getD_cons_succ]
        rw [this]
        congr 1
        apply propext
        omega
    · simp only [observeAll, hstep, List.count_cons, h2, List.length_cons]
      by_cases h : s = 2
      · subst h; simp; omega
      · simp [h]; omega
    · simp only [runObs, hstep, h3, List.length_cons]
      congr 1
      omega

/-- Claim C9. On a fresh detector fed occurrences whose consecutive gaps are all
below 500ms, the call at position `i` (call `i + 1`) returns true exactly when
`i + 1` is a multiple of 3, the number of firings is the number of occurrences
divided by 3, rounded down, and after each firing the next occurrence, whatever
its time, is taken as a first tap: it does not fire and leaves StateOne. -/
theorem firings_every_third (ts : List Int)
    (h : List.Chain' (fun a b => b - a < 500 * Millisecond) ts) :
    (∀ i, i < ts.length →
        ((observeAll obs.zero ts).getD i false = true ↔ (i + 1) % 3 = 0)) ∧
      (observeAll obs.zero ts).count true = ts.length / 3 ∧
      (∀ t : Int, ts ≠ [] → ts.length % 3 = 0 →
        (runObs obs.zero ts).observe t = (false, { last := t, state := StateOne })) := by
  cases ts with
  | nil => simp [observeAll]
  | cons t ts =>
    have hc : List.Chain (fun a b => b - a < 500 * Millisecond) t ts := h
    obtain ⟨h1, h2, h3⟩ := run_all_within ts t 1 (by decide) hc
    have e1 : observeAll obs.zero (t :: ts) =
        false :: observeAll { last := t, state := ((1 : Nat) : Int) } ts := by
      simp only [observeAll, obs.zero, observe_none]; rfl
    have e2 : runObs obs.zero (t :: ts) = runObs { last := t, state := ((1 : Nat) : Int) } ts := by
      simp only [runObs, obs.zero, observe_none]; rfl
    refine ⟨?_, ?_, ?_⟩
    · intro i hi
      rw [e1]
      cases i with
      | zero => simp
      | succ j =>
        have hj : j < ts.length := by simpa using hi
        simp only [List.getD_cons_succ]
        rw [h1 j hj, decide_eq_true_iff]
        omega
    · rw [e1, List.count_cons, h2]
      simp
    · intro u _ hlen
      have hl : (ts.length + 1) % 3 = 0 := by simpa using hlen
      have hst : (runObs obs.zero (t :: ts)).state = StateNone := by
        rw [e2, h3, hl]; rfl
      have hcase := obs_cases _ (Or.inl hst)
      rcases hcase with e | e | e
      · rw [e, observe_none]
      · rw [e] at hst; simp [StateOne, StateNone] at hst
      · rw [e] at hst; simp [StateTwo, StateNone] at hst

theorem firings_every_third_witness :
    (observeAll obs.zero [0, 100, 200, 300, 400, 500, 600]).count true = 7 / 3 :=
  (firings_every_third [0, 100, 200, 300, 400, 500, 600] (by simp [Millisecond])).2.1

/-! ## The input proxy -/

theorem indexByteFrom_ge (c : Byte) (bs : List Byte) : ∀ i : Int, 0 ≤ i →
    (indexByteFrom c bs i = -1 ∧ c ∉ bs) ∨ (i ≤ indexByteFrom c bs i ∧ c ∈ bs) := by
  induction bs with
  | nil => intro i _; left; simp [indexByteFrom]
  | cons b bs ih =>
    intro i hi
    by_cases hb : b = c
    · right; simp [indexByteFrom, hb]
    · rcases ih (i + 1) (by omega) with ⟨h1, h2⟩ | ⟨h1, h2⟩
      · left
        refine ⟨by simp [indexByteFrom, hb, h1], ?_⟩
        simp [h2, Ne.symm hb]
      · right
        refine ⟨by simp only [indexByteFrom, hb, if_false]; omega, ?_⟩
        simp [h2]

/-- The test of line 145 holds exactly when the chunk holds the byte. -/
theorem IndexByte_ne_iff (c : Byte) (bs : List Byte) : IndexByte bs c ≠ -1 ↔ c ∈ bs := by
  unfold IndexByte
  rcases indexByteFrom_ge c bs 0 (le_refl _) with ⟨h1, h2⟩ | ⟨h1, h2⟩
  · simp [h1, h2]
  · constructor
    · intro _; exact h2
    · intro _ h; omega

theorem scanChunk_eq (exitCmdFlag : String) (pid : Int) (o : obs) (data : List Byte) (now : Int) :
    scanChunk exitCmdFlag pid o data now =
      if (0x1d : Byte) ∈ data then
        ((o.observe now).2, if (o.observe now).1 = true then [exitAction exitCmdFlag pid] else [])
      else (o, []) := by
  unfold scanChunk
  by_cases h : (0x1d : Byte) ∈ data
  · rw [if_pos ((IndexByte_ne_iff _ _).2 h), if_pos h]
    by_cases hf : (o.observe now).1 = true <;> simp [hf]
  · rw [if_neg (fun hc => h ((IndexByte_ne_iff _ _).1 hc)), if_neg h]

/-- The loop over turns that all go through: the detector has been called once
per chunk that holds 0x1D, every chunk has been written whole, and one exit
action has been dispatched per call that returned true. -/
theorem inputLoop_ok (exitCmdFlag : String) (pid : Int) (its : List Turn) : ∀ s : Proxy,
    (∀ it ∈ its, it.ok) →
    inputLoop exitCmdFlag pid s its =
      { o := runObs s.o (detachTimes its)
        written := s.written ++ (its.map Turn.data).flatten
        actions := s.actions ++
          List.replicate ((observeAll s.o (detachTimes its)).count true)
            (exitAction exitCmdFlag pid) } := by
  induction its with
  | nil => intro s _; simp [inputLoop, detachTimes, runObs, observeAll]
  | cons it its ih =>
    intro s hok
    obtain ⟨h1, h2, h3⟩ := hok it (List.mem_cons_self _ _)
    have hlen : ¬ it.data.length = 0 := by
      intro hc; exact h2 (List.length_eq_zero.1 hc)
    have hrest : ∀ x ∈ its, x.ok := fun x hx => hok x (List.mem_cons_of_mem _ hx)
    rw [inputLoop]
    simp only [h1, Bool.false_eq_true, if_false, hlen, h3]
    rw [ih _ hrest, scanChunk_eq]
    by_cases hd : (0x1d : Byte) ∈ it.data
    · have ht : detachTimes (it :: its) = it.now :: detachTimes its := by
        simp [detachTimes, List.filter_cons, hd]
      rw [if_pos hd, ht]
      by_cases hf : (s.o.observe it.now).1 = true
      · simp [runObs, observeAll, hf, List.replicate_succ]
      · simp [runObs, observeAll, hf]
    · have ht : detachTimes (it :: its) = detachTimes its := by
        simp [detachTimes, List.filter_cons, hd]
      rw [if_neg hd, ht]
      simp

/-- Claim C2. For every sequence of turns in which each read gives a non-empty
chunk without error and each write succeeds, the bytes written to the PTY
master are what was there before followed by the concatenation of the chunks,
unchanged and in read order (for the goroutine from its start: exactly that
concatenation), whatever the chunks hold and whether or not the detector fires. -/
theorem inputLoop_forwards_all (exitCmdFlag : String) (pid : Int) (s : Proxy) (its : List Turn)
    (hok : ∀ it ∈ its, it.ok) :
    (inputLoop exitCmdFlag pid s its).written = s.written ++ (its.map Turn.data).flatten ∧
      (inputLoop exitCmdFlag pid Proxy.init its).written = (its.map Turn.data).flatten := by
  rw [inputLoop_ok exitCmdFlag pid its s hok, inputLoop_ok exitCmdFlag pid its Proxy.init hok]
  simp [Proxy.init]

theorem inputLoop_forwards_all_witness :
    (inputLoop "" 7 Proxy.init
        [{ data := [0x1d], readErr := false, now := 0, writeErr := none },
         { data := [0x6c, 0x1d], readErr := false, now := 100 * Millisecond, writeErr := none },
         { data := [0x1d, 0x0a], readErr := false, now := 200 * Millisecond,
           writeErr := none }]).written =
      [0x1d, 0x6c, 0x1d, 0x1d, 0x0a] :=
  (inputLoop_forwards_all "" 7 Proxy.init
    [{ data := [0x1d], readErr := false, now := 0, writeErr := none },
     { data := [0x6c, 0x1d], readErr := false, now := 100 * Millisecond, writeErr := none },
     { data := [0x1d, 0x0a], readErr := false, now := 200 * Millisecond, writeErr := none }]
    (by simp [Turn.ok])).2

/-- Claim C4. For one chunk, the scan dispatches exactly one action when the
chunk holds 0x1D and `observe` returns true, and none otherwise; that action
depends only on the `-c` string and the child's pid: SIGTERM to the child when
the string is empty, and otherwise `bash -c <string>` run asynchronously with
the environment `TARGET_PID=<pid>`; and over turns that all go through, the
actions dispatched are one such action per call of `observe` that returned
true, and nothing else. -/
theorem exit_dispatch (exitCmdFlag : String) (pid : Int) (o : obs) (data : List Byte) (now : Int)
    (s : Proxy) (its : List Turn) (hok : ∀ it ∈ its, it.ok) :
    (scanChunk exitCmdFlag pid o data now).2 =
        (if (0x1d : Byte) ∈ data ∧ (o.observe now).1 = true then [exitAction exitCmdFlag pid]
         else []) ∧
      exitAction exitCmdFlag pid =
        (if exitCmdFlag = "" then Action.Signal pid Signal.SIGTERM
         else Action.RunAsync "bash" ["-c", exitCmdFlag] ["TARGET_PID=" ++ toString pid]) ∧
      (inputLoop exitCmdFlag pid s its).actions =
        s.actions ++ List.replicate ((observeAll s.o (detachTimes its)).count true)
          (exitAction exitCmdFlag pid) := by
  refine ⟨?_, ?_, ?_⟩
  · rw [scanChunk_eq]
    by_cases hd : (0x1d : Byte) ∈ data
    · by_cases hf : (o.observe now).1 = true <;> simp [hd, hf]
    · simp [hd]
  · unfold exitAction
    by_cases h : exitCmdFlag = "" <;> simp [h]
  · rw [inputLoop_ok exitCmdFlag pid its s hok]

theorem exit_dispatch_witness :
    (inputLoop "kill -9 $TARGET_PID" 4242 Proxy.init
        [{ data := [0x1d], readErr := false, now := 0, writeErr := none },
         { data := [0x1d], readErr := false, now := 100 * Millisecond, writeErr := none },
         { data := [0x1d], readErr := false, now := 200 * Millisecond, writeErr := none }]).actions =
      [Action.RunAsync "bash" ["-c", "kill -9 $TARGET_PID"] ["TARGET_PID=4242"]] := by
  have h := (exit_dispatch "kill -9 $TARGET_PID" 4242 obs.zero [] 0 Proxy.init
    [{ data := [0x1d], readErr := false, now := 0, writeErr := none },
     { data := [0x1d], readErr := false, now := 100 * Millisecond, writeErr := none },
     { data := [0x1d], readErr := false, now := 200 * Millisecond, writeErr := none }]
    (by simp [Turn.ok])).2.2
  rw [h]
  decide

/-- Claim C5. For every chunk the scan leaves the detector as one call of
`observe` leaves it when the chunk holds 0x1D at least once, however often, and
leaves it untouched, state and timestamp, when the chunk holds no 0x1D; over
turns that all go through, the detector ends as after one call per chunk that
holds 0x1D and none for the others; the chunk "ls\n" leaves a fresh detector
Idle, and one chunk of three 0x1D bytes takes a fresh detector to ArmedOnce
only and dispatches nothing. -/
theorem scan_once_per_chunk (exitCmdFlag : String) (pid : Int) (o : obs) (data : List Byte)
    (now : Int) (s : Proxy) (its : List Turn) (hok : ∀ it ∈ its, it.ok) :
    (scanChunk exitCmdFlag pid o data now).1 =
        (if (0x1d : Byte) ∈ data then (o.observe now).2 else o) ∧
      (inputLoop exitCmdFlag pid s its).o = runObs s.o (detachTimes its) ∧
      inputLoop exitCmdFlag pid Proxy.init
          [{ data := [0x6c, 0x73, 0x0a], readErr := false, now := now, writeErr := none }] =
        { o := { last := 0, state := StateNone }, written := [0x6c, 0x73, 0x0a], actions := [] } ∧
      inputLoop exitCmdFlag pid Proxy.init
          [{ data := [0x1d, 0x1d, 0x1d], readErr := false, now := now, writeErr := none }] =
        { o := { last := now, state := StateOne }, written := [0x1d, 0x1d, 0x1d],
          actions := [] } := by
  refine ⟨?_, ?_, ?_, ?_⟩
  · rw [scanChunk_eq]
    by_cases hd : (0x1d : Byte) ∈ data <;> simp [hd]
  · rw [inputLoop_ok exitCmdFlag pid its s hok]
  · rw [inputLoop_ok exitCmdFlag pid _ _ (by simp [Turn.ok])]
    have ht : detachTimes
        [{ data := [0x6c, 0x73, 0x0a], readErr := false, now := now, writeErr := none }] = [] := by
      simp [detachTimes]
    rw [ht]
    simp [Proxy.init, runObs, observeAll, obs.zero]
  · rw [inputLoop_ok exitCmdFlag pid _ _ (by simp [Turn.ok])]
    have ht : detachTimes
        [{ data := [0x1d, 0x1d, 0x1d], readErr := false, now := now, writeErr := none }] =
          [now] := by
      simp [detachTimes]
    rw [ht]
    simp [Proxy.init, runObs, observeAll, obs.zero, observe_none]

theorem scan_once_per_chunk_witness :
    (inputLoop "" 7 Proxy.init
        [{ data := [0x1d, 0x1d], readErr := false, now := 0, writeErr := none },
         { data := [0x6c], readErr := false, now := 100 * Millisecond, writeErr := none },
         { data := [0x1d], readErr := false, now := 200 * Millisecond, writeErr := none }]).o =
      { last := 200 * Millisecond, state := StateTwo } := by
  have h := (scan_once_per_chunk "" 7 obs.zero [] 0 Proxy.init
    [{ data := [0x1d, 0x1d], readErr := false, now := 0, writeErr := none },
     { data := [0x6c], readErr := false, now := 100 * Millisecond, writeErr := none },
     { data := [0x1d], readErr := false, now := 200 * Millisecond, writeErr := none }]
    (by simp [Turn.ok])).2.1
  rw [h]
  decide

/-! ## Stream routing -/

/-- Claim C7. Whatever `term.IsTerminal` answers for the three real streams, each
stream of the child is the PTY slave exactly when the real stream is a terminal
and the real stream otherwise; `ptmxTarget` is the real stdout when stdout is a
terminal, otherwise the real stderr when stderr is a terminal, otherwise nil;
and the output goroutine writes what it reads from the PTY master to that
destination, and writes nothing when `ptmxTarget` is nil. -/
theorem routing_spec (IsTerminal : File → Bool) (fromMaster : List (List Byte)) :
    (routing IsTerminal).cmdStdin =
        (if IsTerminal File.Stdin then File.tty else File.Stdin) ∧
      (routing IsTerminal).cmdStdout =
        (if IsTerminal File.Stdout then File.tty else File.Stdout) ∧
      (routing IsTerminal).cmdStderr =
        (if IsTerminal File.Stderr then File.tty else File.Stderr) ∧
      ((routing IsTerminal).cmdStdin = File.tty ↔ IsTerminal File.Stdin = true) ∧
      ((routing IsTerminal).cmdStdout = File.tty ↔ IsTerminal File.Stdout = true) ∧
      ((routing IsTerminal).cmdStderr = File.tty ↔ IsTerminal File.Stderr = true) ∧
      (routing IsTerminal).ptmxTarget =
        (if IsTerminal File.Stdout then some File.Stdout
         else if IsTerminal File.Stderr then some File.Stderr
         else none) ∧
      outputProxy (routing IsTerminal).ptmxTarget fromMaster =
        (if IsTerminal File.Stdout then fromMaster.map (fun chunk => (File.Stdout, chunk))
         else if IsTerminal File.Stderr then fromMaster.map (fun chunk => (File.Stderr, chunk))
         else []) := by
  cases h0 : IsTerminal File.Stdin <;> cases h1 : IsTerminal File.Stdout <;>
    cases h2 : IsTerminal File.Stderr <;>
    simp [routing, ttyIfTerm, outputProxy, h0, h1, h2]

/-! ## Exit paths -/

/-- The three runs of `main` in which raw mode is entered. -/
theorem mainRun_raw (env : Env) (h : Event.MakeRaw ∈ mainRun env) :
    mainRun env = [Event.MakeRaw, Event.Restore, Event.PanicExit] ∨
      mainRun env =
        [Event.MakeRaw, Event.PtyOpen, Event.PtmxClose, Event.Restore, Event.PanicExit] ∨
      mainRun env =
        [Event.MakeRaw, Event.PtyOpen, Event.Start, Event.TtyClose, Event.Notify, Event.GoInput,
          Event.GoOutput, Event.ProcessWait, Event.WgWait, Event.SignalStop, Event.PtmxClose,
          Event.Restore, Event.Return] := by
  obtain ⟨n, b0, b1, b2⟩ := env
  by_cases hn : n = 0
  · subst hn; simp [mainRun, mainBody] at h
  · cases b0
    · cases b1 <;> cases b2 <;> simp [mainRun, mainBody, hn]
    · simp [mainRun, mainBody, hn] at h

/-- Claim C8, as amended. Once raw mode has been entered, every run of `main` that
ends by unwinding (a panic after a failed `pty.Open` or a failed `cmd.Start`,
or the return after the child has exited) restores the terminal mode exactly
once, as its last step before the process ends; a signal registered with
`signal.Notify` does not change the run; and a signal that is not registered
and arrives before that last step ends the process with no restore at all. -/
theorem restore_once_on_unwind (env : Env) (h : Event.MakeRaw ∈ mainRun env) :
    (mainRun env).count Event.Restore = 1 ∧
      (∃ pre e, mainRun env = pre ++ [Event.Restore, e] ∧
        (e = Event.Return ∨ e = Event.PanicExit) ∧ Event.MakeRaw ∈ pre) ∧
      (∀ k sig, sig ∈ notified → mainRunSignalled env k sig = mainRun env) ∧
      (∀ k sig, sig ∉ notified → k + 2 ≤ (mainRun env).length →
        (mainRunSignalled env k sig).count Event.Restore = 0 ∧
        (mainRunSignalled env k sig).getLast? = some (Event.Killed sig)) := by
  have hnot : ∀ k sig, sig ∈ notified → mainRunSignalled env k sig = mainRun env := by
    intro k sig hs; simp [mainRunSignalled, hs]
  have hkill : ∀ k sig, sig ∉ notified → k + 2 ≤ (mainRun env).length →
      mainRunSignalled env k sig = (mainRun env).take k ++ [Event.Killed sig] := by
    intro k sig hs hk
    have hk2 : k < (mainRun env).length := by omega
    simp [mainRunSignalled, hs, hk2]
  rcases mainRun_raw env h with hr | hr | hr
  · refine ⟨by rw [hr]; decide, ⟨[Event.MakeRaw], Event.PanicExit, by rw [hr]; rfl, by simp,
      by simp⟩, hnot, ?_⟩
    intro k sig hs hk
    rw [hkill k sig hs hk, hr]
    rw [hr] at hk
    have hk3 : k ≤ 1 := by
      simp only [List.length_cons, List.length_nil] at hk; omega
    interval_cases k <;> simp
  · refine ⟨by rw [hr]; decide, ⟨[Event.MakeRaw, Event.PtyOpen, Event.PtmxClose],
      Event.PanicExit, by rw [hr]; rfl, by simp, by simp⟩, hnot, ?_⟩
    intro k sig hs hk
    rw [hkill k sig hs hk, hr]
    rw [hr] at hk
    have hk3 : k ≤ 3 := by
      simp only [List.length_cons, List.length_nil] at hk; omega
    interval_cases k <;> simp
  · refine ⟨by rw [hr]; decide, ⟨[Event.MakeRaw, Event.PtyOpen, Event.Start, Event.TtyClose,
      Event.Notify, Event.GoInput, Event.GoOutput, Event.ProcessWait, Event.WgWait,
      Event.SignalStop, Event.PtmxClose], Event.Return, by rw [hr]; rfl, by simp, by simp⟩,
      hnot, ?_⟩
    intro k sig hs hk
    rw [hkill k sig hs hk, hr]
    rw [hr] at hk
    have hk3 : k ≤ 11 := by
      simp only [List.length_cons, List.length_nil] at hk; omega
    interval_cases k <;> simp

theorem restore_once_on_unwind_witness :
    (mainRun { nargs := 1, makeRawErr := false, ptyOpenErr := false, startErr := true }).count
      Event.Restore = 1 :=
  (restore_once_on_unwind
    { nargs := 1, makeRawErr := false, ptyOpenErr := false, startErr := true } (by decide)).1

/-- Claim C8, as stated, fails. With raw mode entered and the child running, a
SIGTERM delivered to the process while it waits for the child ends it there:
the run holds the entry into raw mode, ends with the kill, and holds no
restore. -/
theorem killed_without_restore :
    Event.MakeRaw ∈ mainRunSignalled
        { nargs := 1, makeRawErr := false, ptyOpenErr := false, startErr := false }
        8 Signal.SIGTERM ∧
      (mainRunSignalled
        { nargs := 1, makeRawErr := false, ptyOpenErr := false, startErr := false }
        8 Signal.SIGTERM).getLast? = some (Event.Killed Signal.SIGTERM) ∧
      (mainRunSignalled
        { nargs := 1, makeRawErr := false, ptyOpenErr := false, startErr := false }
        8 Signal.SIGTERM).count Event.Restore = 0 := by
  decide

end Cliexit
